import Mathlib

/-!
Verification of the SIH timetable generator (files `TimetableGenerator.py` and
`TT_prototype.py`).

The CP-SAT solver is an external engine: the two solve functions build a
constraint model, hand it to the solver, and decode the returned variable
values.  We embed the constraint model as a decidable satisfaction predicate
over the decision-variable valuation, embed the pre-checks, the status
handling and the decoders as executable functions, and treat the solver as an
oracle that returns a status together with a valuation; an honest solver
returns a valuation satisfying the model whenever the status is
OPTIMAL/FEASIBLE.  Everything quantified over "schedules returned by a
successful solve" is stated for an arbitrary status/valuation pair under that
soundness assumption.
-/

namespace Timetable

/-! ### Generic list helpers

`lastTrue p l` is the element the Python decode loops leave in a cell: the
loops walk `l` in order and overwrite the cell each time the predicate holds,
so the final content is the last element of `l` satisfying `p` (or nothing).
-/

def lastTrue {α : Type} (p : α → Bool) (l : List α) : Option α :=
  l.foldl (fun acc a => if p a then some a else acc) none

theorem foldl_overwrite_const {α : Type} (p : α → Bool) (l : List α)
    (init : Option α) (h : ∀ a ∈ l, p a = false) :
    l.foldl (fun acc a => if p a then some a else acc) init = init := by
  induction l generalizing init with
  | nil => rfl
  | cons x xs ih =>
    have hx : p x = false := h x (by simp)
    simp only [List.foldl_cons, hx, Bool.false_eq_true, if_false]
    exact ih init (fun a ha => h a (by simp [ha]))

theorem lastTrue_eq_none {α : Type} (p : α → Bool) (l : List α)
    (h : l.countP p = 0) : lastTrue p l = none := by
  refine foldl_overwrite_const p l none (fun a ha => ?_)
  have := List.countP_eq_zero.mp h a ha
  simpa using this

theorem foldl_overwrite_unique {α : Type} (p : α → Bool) (l : List α)
    (h : l.countP p = 1) :
    ∃ a, a ∈ l ∧ p a = true ∧ ∀ init,
      l.foldl (fun acc x => if p x then some x else acc) init = some a := by
  induction l with
  | nil => simp at h
  | cons x xs ih =>
    rw [List.countP_cons] at h
    by_cases hx : p x = true
    · rw [if_pos hx] at h
      have hxs : xs.countP p = 0 := by omega
      refine ⟨x, by simp, hx, fun init => ?_⟩
      simp only [List.foldl_cons, hx, if_true]
      refine foldl_overwrite_const p xs (some x) (fun a ha => ?_)
      have := List.countP_eq_zero.mp hxs a ha
      simpa using this
    · rw [if_neg hx] at h
      have hxs : xs.countP p = 1 := by omega
      obtain ⟨a, hmem, hpa, hfold⟩ := ih hxs
      refine ⟨a, by simp [hmem], hpa, fun init => ?_⟩
      simp only [List.foldl_cons, hx, if_false]
      exact hfold init

theorem lastTrue_of_countP_one {α : Type} (p : α → Bool) (l : List α)
    (h : l.countP p = 1) :
    ∃ a, a ∈ l ∧ p a = true ∧ lastTrue p l = some a := by
  obtain ⟨a, hmem, hpa, hfold⟩ := foldl_overwrite_unique p l h
  exact ⟨a, hmem, hpa, hfold none⟩

theorem foldl_overwrite_some {α : Type} (p : α → Bool) (l : List α)
    (init : Option α) (a : α)
    (h : l.foldl (fun acc x => if p x then some x else acc) init = some a) :
    (a ∈ l ∧ p a = true) ∨ init = some a := by
  induction l generalizing init with
  | nil => exact Or.inr h
  | cons x xs ih =>
    simp only [List.foldl_cons] at h
    rcases ih _ h with ⟨hmem, hpa⟩ | hinit
    · exact Or.inl ⟨by simp [hmem], hpa⟩
    · by_cases hx : p x = true
      · simp only [hx, if_true, Option.some.injEq] at hinit
        exact Or.inl ⟨by simp [hinit], hinit ▸ hx⟩
      · simp only [hx, if_false] at hinit
        exact Or.inr hinit

theorem lastTrue_some {α : Type} {p : α → Bool} {l : List α} {a : α}
    (h : lastTrue p l = some a) : a ∈ l ∧ p a = true := by
  rcases foldl_overwrite_some p l none a h with h' | h'
  · exact h'
  · simp at h'

theorem two_le_length_of_two_mem {α : Type} {l : List α} {a b : α}
    (ha : a ∈ l) (hb : b ∈ l) (hne : a ≠ b) : 2 ≤ l.length := by
  match l with
  | [] => simp at ha
  | [x] =>
    simp only [List.mem_singleton] at ha hb
    exact absurd (ha.trans hb.symm) hne
  | x :: y :: rest => simp only [List.length_cons]; omega

theorem two_le_countP {α : Type} (p : α → Bool) {l : List α} {a b : α}
    (ha : a ∈ l) (hb : b ∈ l) (hne : a ≠ b)
    (hpa : p a = true) (hpb : p b = true) : 2 ≤ l.countP p := by
  rw [List.countP_eq_length_filter]
  exact two_le_length_of_two_mem (List.mem_filter.mpr ⟨ha, hpa⟩)
    (List.mem_filter.mpr ⟨hb, hpb⟩) hne

/-! ### Counting conversions between `List.countP` and `Finset.sum` -/

theorem countP_range_eq_sum (n : Nat) (q : Nat → Bool) :
    (List.range n).countP q = ∑ i ∈ Finset.range n, (q i).toNat := by
  induction n with
  | zero => simp
  | succ n ih =>
    rw [List.range_succ, List.countP_append, Finset.sum_range_succ, ih]
    simp only [List.countP_cons, List.countP_nil]
    cases q n <;> simp

theorem countP_flatMap_range {α : Type} (n : Nat) (g : Nat → List α)
    (p : α → Bool) :
    ((List.range n).flatMap g).countP p
      = ∑ i ∈ Finset.range n, (g i).countP p := by
  induction n with
  | zero => simp
  | succ n ih =>
    rw [List.range_succ, List.flatMap_append, List.countP_append,
      Finset.sum_range_succ, ih]
    simp

theorem single_le_sum_range (f : Nat → Nat) {n i : Nat} (hi : i < n) :
    f i ≤ ∑ a ∈ Finset.range n, f a :=
  Finset.single_le_sum (fun _ _ => Nat.zero_le _) (Finset.mem_range.mpr hi)

/-- Auxiliary: split a sum over `range (a + b)` at `a`. -/
theorem sum_range_add (f : Nat → Nat) (a b : Nat) :
    ∑ i ∈ Finset.range (a + b), f i
      = (∑ i ∈ Finset.range a, f i) + ∑ j ∈ Finset.range b, f (a + j) := by
  induction b with
  | zero => simp
  | succ b ih =>
    rw [← Nat.add_assoc, Finset.sum_range_succ, ih, Finset.sum_range_succ]
    omega

/-- Split a sum over a `d * n`-element range into `d` day-blocks of `n`. -/
theorem sum_range_mul (f : Nat → Nat) (d n : Nat) :
    ∑ t ∈ Finset.range (d * n), f t
      = ∑ i ∈ Finset.range d, ∑ k ∈ Finset.range n, f (i * n + k) := by
  induction d with
  | zero => simp
  | succ d ih =>
    rw [Nat.succ_mul, sum_range_add, ih, Finset.sum_range_succ]

/-! ### Iteration-order product lists

The Python decode loops iterate `for s: for f: for c:`; `tripleList S F C`
is that iteration order as a list of `(s, (f, c))` triples, built from the
inner `(f, c)` loop `pairList F C`. -/

def pairList (F C : Nat) : List (Nat × Nat) :=
  (List.range F).flatMap (fun f => (List.range C).map (fun c => (f, c)))

def tripleList (S F C : Nat) : List (Nat × Nat × Nat) :=
  (List.range S).flatMap (fun s => (pairList F C).map (fun p => (s, p)))

theorem countP_pairList (F C : Nat) (q : Nat → Nat → Bool) :
    (pairList F C).countP (fun p => q p.1 p.2)
      = ∑ f ∈ Finset.range F, ∑ c ∈ Finset.range C, (q f c).toNat := by
  unfold pairList
  rw [countP_flatMap_range]
  refine Finset.sum_congr rfl (fun f _ => ?_)
  rw [List.countP_map, countP_range_eq_sum]
  rfl

theorem countP_tripleList (S F C : Nat) (r : Nat → Nat → Nat → Bool) :
    (tripleList S F C).countP (fun a => r a.1 a.2.1 a.2.2)
      = ∑ s ∈ Finset.range S, ∑ f ∈ Finset.range F, ∑ c ∈ Finset.range C,
          (r s f c).toNat := by
  unfold tripleList
  rw [countP_flatMap_range]
  refine Finset.sum_congr rfl (fun s _ => ?_)
  rw [List.countP_map]
  exact countP_pairList F C (fun f c => r s f c)

theorem mem_pairList {F C : Nat} {p : Nat × Nat} :
    p ∈ pairList F C ↔ p.1 < F ∧ p.2 < C := by
  cases p with
  | mk f c =>
    simp [pairList, List.mem_flatMap, List.mem_map, List.mem_range]

theorem mem_tripleList {S F C : Nat} {a : Nat × Nat × Nat} :
    a ∈ tripleList S F C ↔ a.1 < S ∧ a.2.1 < F ∧ a.2.2 < C := by
  cases a with
  | mk s p =>
    simp only [tripleList, List.mem_flatMap, List.mem_map, List.mem_range]
    constructor
    · rintro ⟨s', hs', p', hp', heq⟩
      injection heq with h1 h2
      subst h1; subst h2
      exact ⟨hs', mem_pairList.mp hp'⟩
    · rintro ⟨hs, hp⟩
      exact ⟨s, hs, p, mem_pairList.mpr hp, rfl⟩

/-! ### TimetableGenerator.py — the `solve_timetable_model` constraint model

`solve_timetable_model(batches, faculty, classrooms, time_limit,
min_hours_day, max_hours_day)` first derives sorted index lists
(`batch_list`, `faculty_list`, `classroom_list`, `all_subjects`).  A
`GenInstance` is the model input after that indexing step: every field is a
function of those stable integer indices. -/

structure GenInstance where
  numBatches : Nat
  numSubjects : Nat
  numFaculty : Nat
  numClassrooms : Nat
  /-- Number of entries of `get_current_days()` (5, or 6 with Saturday). -/
  numDays : Nat
  /-- Number of entries of `self.slots`. -/
  numSlotsPerDay : Nat
  /-- Whether `all_subjects[s]` is in `batches[batch_list[b]]["subjects"]`. -/
  requires : Nat → Nat → Bool
  /-- The value `batches[batch_list[b]]["subjects"][all_subjects[s]].get("hours", 0)`. -/
  hours : Nat → Nat → Nat
  /-- The value `batches[batch_list[b]]["subjects"][all_subjects[s]].get("type")`. -/
  subjType : Nat → Nat → String
  /-- Arguments `f s b`: whether `all_subjects[s]` is in the assignments of
  `faculty_list[f]` with `batch_list[b]` in its batch set (line 1103). -/
  authorized : Nat → Nat → Nat → Bool
  /-- The value `classrooms[classroom_list[c]]["type"]`. -/
  roomType : Nat → String
  /-- The value `classrooms[classroom_list[c]]["capacity"]`. -/
  capacity : Nat → Nat
  /-- The value `classrooms[classroom_list[c]].get("max_daily_hours", num_slots_per_day)`. -/
  maxDailyHours : Nat → Nat
  minHoursDay : Nat
  maxHoursDay : Nat
  /-- The flag `faculty[faculty_list[f]].get("preferences", {}).get("prefers_morning")`. -/
  prefersMorning : Nat → Bool
  /-- The value `int(self.slots[k].split('-')[0])`. -/
  slotStartHour : Nat → Nat

def GenInstance.totalSlots (inst : GenInstance) : Nat :=
  inst.numDays * inst.numSlotsPerDay

/-- A valuation of the boolean decision variables `x[b, s, f, c, t]`. -/
abbrev GenAssign := Nat → Nat → Nat → Nat → Nat → Bool

/-- Sum of `x[b, s, f, c, t]` over `for f: for c: for t:` (lines 1100/1134). -/
def xSumFCT (inst : GenInstance) (x : GenAssign) (b s : Nat) : Nat :=
  ∑ f ∈ Finset.range inst.numFaculty, ∑ c ∈ Finset.range inst.numClassrooms,
    ∑ t ∈ Finset.range inst.totalSlots, (x b s f c t).toNat

/-- Sum over `for c: for t:` for a fixed faculty member (line 1106). -/
def xSumCT (inst : GenInstance) (x : GenAssign) (b s f : Nat) : Nat :=
  ∑ c ∈ Finset.range inst.numClassrooms, ∑ t ∈ Finset.range inst.totalSlots,
    (x b s f c t).toNat

/-- Sum over `for f: for t:` for a fixed classroom (line 1111). -/
def xSumFT (inst : GenInstance) (x : GenAssign) (b s c : Nat) : Nat :=
  ∑ f ∈ Finset.range inst.numFaculty, ∑ t ∈ Finset.range inst.totalSlots,
    (x b s f c t).toNat

/-- Sum over `for s: for f: for c:` for a batch and slot (lines 1114/1139). -/
def xSumSFC (inst : GenInstance) (x : GenAssign) (b t : Nat) : Nat :=
  ∑ s ∈ Finset.range inst.numSubjects, ∑ f ∈ Finset.range inst.numFaculty,
    ∑ c ∈ Finset.range inst.numClassrooms, (x b s f c t).toNat

/-- Sum over `for b: for s: for c:` for a faculty member and slot
(lines 1117/1186). -/
def xSumBSC (inst : GenInstance) (x : GenAssign) (f t : Nat) : Nat :=
  ∑ b ∈ Finset.range inst.numBatches, ∑ s ∈ Finset.range inst.numSubjects,
    ∑ c ∈ Finset.range inst.numClassrooms, (x b s f c t).toNat

/-- Sum over `for b: for s: for f:` for a classroom and slot (line 1121). -/
def xSumBSF (inst : GenInstance) (x : GenAssign) (c t : Nat) : Nat :=
  ∑ b ∈ Finset.range inst.numBatches, ∑ s ∈ Finset.range inst.numSubjects,
    ∑ f ∈ Finset.range inst.numFaculty, (x b s f c t).toNat

/-- Sum over `for b: for s: for f: for t in daily_slots:` (line 1128). -/
def roomDaySum (inst : GenInstance) (x : GenAssign) (c d : Nat) : Nat :=
  ∑ b ∈ Finset.range inst.numBatches, ∑ s ∈ Finset.range inst.numSubjects,
    ∑ f ∈ Finset.range inst.numFaculty, ∑ k ∈ Finset.range inst.numSlotsPerDay,
      (x b s f c (d * inst.numSlotsPerDay + k)).toNat

/-- The helper variable `y[b, t]` of line 1138.  The model constrains
`sum(x[b,s,f,c,t] for s,f,c) == y[b,t]` with `y` boolean, which both forces
the sum to be at most 1 (also imposed separately on line 1114) and
determines `y` from `x`; this is that determined value. -/
def yG (inst : GenInstance) (x : GenAssign) (b t : Nat) : Bool :=
  xSumSFC inst x b t = 1

/-- The expression `daily_hours` of line 1143: the `y`-count of one day. -/
def dailyG (inst : GenInstance) (x : GenAssign) (b d : Nat) : Nat :=
  ∑ k ∈ Finset.range inst.numSlotsPerDay,
    (yG inst x b (d * inst.numSlotsPerDay + k)).toNat

/-- Derived quantity (no counterpart in `solve_timetable_model`): a batch's
occupied-slot count over the whole week. -/
def weeklyG (inst : GenInstance) (x : GenAssign) (b : Nat) : Nat :=
  ∑ t ∈ Finset.range inst.totalSlots, (yG inst x b t).toNat

/-- The hard constraints of `solve_timetable_model` (lines 1096-1148),
projected onto the decision variables: the boolean helpers `y[b,t]` and
`day_has_class[b,d]` are two-directionally linked to `x`, so they are
replaced by their determined values (`yG`, `0 < dailyG`). -/
def GenSat (inst : GenInstance) (x : GenAssign) : Prop :=
  (∀ b < inst.numBatches, ∀ s < inst.numSubjects,
      inst.requires b s = false → xSumFCT inst x b s = 0) ∧
  (∀ b < inst.numBatches, ∀ s < inst.numSubjects, inst.requires b s = true →
      ∀ f < inst.numFaculty, inst.authorized f s b = false →
        xSumCT inst x b s f = 0) ∧
  (∀ b < inst.numBatches, ∀ s < inst.numSubjects, inst.requires b s = true →
      ∀ c < inst.numClassrooms, inst.roomType c ≠ inst.subjType b s →
        xSumFT inst x b s c = 0) ∧
  (∀ b < inst.numBatches, ∀ t < inst.totalSlots, xSumSFC inst x b t ≤ 1) ∧
  (∀ f < inst.numFaculty, ∀ t < inst.totalSlots, xSumBSC inst x f t ≤ 1) ∧
  (∀ c < inst.numClassrooms, ∀ t < inst.totalSlots,
      xSumBSF inst x c t ≤ inst.capacity c) ∧
  (∀ c < inst.numClassrooms, ∀ d < inst.numDays,
      roomDaySum inst x c d ≤ inst.maxDailyHours c) ∧
  (∀ b < inst.numBatches, ∀ s < inst.numSubjects, inst.requires b s = true →
      xSumFCT inst x b s = inst.hours b s) ∧
  (∀ b < inst.numBatches, ∀ d < inst.numDays,
      dailyG inst x b d ≤ inst.maxHoursDay ∧
      (0 < dailyG inst x b d → inst.minHoursDay ≤ dailyG inst x b d))

instance (inst : GenInstance) (x : GenAssign) : Decidable (GenSat inst x) := by
  unfold GenSat
  repeat' refine @instDecidableAnd _ _ ?_ ?_
  all_goals infer_instance

/-- Constant `MAX_CONSECUTIVE_CLASSES` (line 20). -/
def MAX_CONSECUTIVE_CLASSES : Nat := 3

/-- The objective composer's auxiliary indicator constraints
(lines 1151-1187).  Each indicator is only half-linked in the source: the
model orders `indicator = true → condition` via `OnlyEnforceIf(indicator)`
and places no constraint at all on the indicator when it is false. -/
def GenComposerSat (inst : GenInstance) (x : GenAssign)
    (adj : Nat → Nat → Nat → Bool) (isFree : Nat → Nat → Bool)
    (isLong : Nat → Nat → Nat → Bool) (hasClass : Nat → Nat → Bool) : Prop :=
  (∀ b < inst.numBatches, ∀ d < inst.numDays,
      ∀ k, k < inst.numSlotsPerDay - 1 → adj b d k = true →
        yG inst x b (d * inst.numSlotsPerDay + k) = true ∧
        yG inst x b (d * inst.numSlotsPerDay + k + 1) = true) ∧
  (∀ b < inst.numBatches, ∀ d < inst.numDays,
      isFree b d = true → dailyG inst x b d = 0) ∧
  (∀ b < inst.numBatches, ∀ d < inst.numDays,
      ∀ k, k < inst.numSlotsPerDay - MAX_CONSECUTIVE_CLASSES →
        isLong b d k = true → ∀ i, i ≤ MAX_CONSECUTIVE_CLASSES →
          yG inst x b (d * inst.numSlotsPerDay + k + i) = true) ∧
  (∀ f < inst.numFaculty, inst.prefersMorning f = true →
      ∀ d < inst.numDays, ∀ k < inst.numSlotsPerDay,
        12 ≤ inst.slotStartHour k →
          hasClass f (d * inst.numSlotsPerDay + k) = true →
            0 < xSumBSC inst x f (d * inst.numSlotsPerDay + k))

instance (inst : GenInstance) (x : GenAssign) (adj : Nat → Nat → Nat → Bool)
    (isFree : Nat → Nat → Bool) (isLong : Nat → Nat → Nat → Bool)
    (hasClass : Nat → Nat → Bool) :
    Decidable (GenComposerSat inst x adj isFree isLong hasClass) := by
  unfold GenComposerSat
  repeat' refine @instDecidableAnd _ _ ?_ ?_
  all_goals try infer_instance
  all_goals refine @Nat.decidableBallLT _ _ (fun f hf => ?_)
  all_goals infer_instance

instance {ε α : Type} [DecidableEq ε] [DecidableEq α] :
    DecidableEq (Except ε α) := fun x y =>
  match x, y with
  | .ok a, .ok b => decidable_of_iff (a = b) (by simp)
  | .error a, .error b => decidable_of_iff (a = b) (by simp)
  | .ok _, .error _ => isFalse (by simp)
  | .error _, .ok _ => isFalse (by simp)

/-! ### Solver statuses and the accept/reject logic -/

/-- The solver statuses of the Solver Adapter interface. -/
inductive CpStatus where
  | optimal
  | feasible
  | infeasible
  | unknown
deriving DecidableEq

/-- The test `status in (cp_model.OPTIMAL, cp_model.FEASIBLE)` of
lines 1196 / 198. -/
def acceptable : CpStatus → Bool
  | .optimal => true
  | .feasible => true
  | .infeasible => false
  | .unknown => false

/-- The `RuntimeError` message of line 1197. -/
def genNoFeasibleMsg : String :=
  "No feasible solution found. Check constraints and parameters (e.g., min/max hours per day)."

/-! ### The solution decoder of `solve_timetable_model` (lines 1199-1206) -/

/-- One cell of the decoded schedule: `schedule[b][t]` is overwritten by
`(all_subjects[s], faculty_list[f], classroom_list[c])` for every true
`x[b,s,f,c,t]` in `for s: for f: for c:` order, so it ends as the last true
triple (indices stand for the looked-up names). -/
def decodeCellG (inst : GenInstance) (x : GenAssign) (b t : Nat) :
    Option (Nat × Nat × Nat) :=
  lastTrue (fun a => x b a.1 a.2.1 a.2.2 t)
    (tripleList inst.numSubjects inst.numFaculty inst.numClassrooms)

/-- The full decoded schedule `[[None] * total_slots for _ in batches]`
after the decode loops. -/
def decodeScheduleG (inst : GenInstance) (x : GenAssign) :
    List (List (Option (Nat × Nat × Nat))) :=
  (List.range inst.numBatches).map (fun b =>
    (List.range inst.totalSlots).map (fun t => decodeCellG inst x b t))

/-- `solve_timetable_model` after model construction, with the external
CP-SAT solver abstracted as an oracle returning `status` and the valuation
`x`: statuses other than OPTIMAL/FEASIBLE raise (line 1196), otherwise the
decoded schedule is returned.  There is no pre-check stage and no
configuration-error path. -/
def solve_timetable_model (inst : GenInstance) (status : CpStatus)
    (x : GenAssign) : Except String (List (List (Option (Nat × Nat × Nat)))) :=
  if acceptable status then .ok (decodeScheduleG inst x)
  else .error genNoFeasibleMsg

/-! ### TT_prototype.py — `solve_timetable`

The prototype has no individual faculty or classrooms: subjects carry a
weekly-hours count and a faculty head-count, rooms are a fungible pool.
`ProtoInstance` is the argument list of `solve_timetable` with the subject
list indexed by position. -/

structure ProtoInstance where
  numSubjects : Nat
  numBatches : Nat
  numRooms : Nat
  /-- Entry `subjects[s][1]`, the weekly hours. -/
  hours : Nat → Nat
  /-- Entry `subjects[s][2]`, the faculty head-count. -/
  facCount : Nat → Nat
  maxPerDay : Nat
  maxPerWeek : Nat
  minPerDay : Nat
  numDays : Nat
  numSlotsPerDay : Nat

def ProtoInstance.totalSlots (inst : ProtoInstance) : Nat :=
  inst.numDays * inst.numSlotsPerDay

/-- The expression `required_per_batch = sum(hours for (_, hours, _) in subjects)`. -/
def requiredPerBatch (inst : ProtoInstance) : Nat :=
  ∑ s ∈ Finset.range inst.numSubjects, inst.hours s

def protoMsg1 (inst : ProtoInstance) : String :=
  "Max hours/day (" ++ toString inst.maxPerDay ++
    ") exceeds available slots per day (" ++ toString inst.numSlotsPerDay ++ ")."

def protoMsg2 (inst : ProtoInstance) : String :=
  "Max hours/week (" ++ toString inst.maxPerWeek ++
    ") exceeds total slots in the week (" ++ toString inst.totalSlots ++ ")."

def protoMsg3 (inst : ProtoInstance) : String :=
  "Min hours/day (" ++ toString inst.minPerDay ++
    ") cannot be greater than Max hours/day (" ++ toString inst.maxPerDay ++ ")."

def protoMsg4 (inst : ProtoInstance) : String :=
  "Total required hours per batch (" ++ toString (requiredPerBatch inst) ++
    ") exceeds the weekly limit (" ++ toString inst.maxPerWeek ++ ")."

def protoMsg5 (inst : ProtoInstance) : String :=
  "Not enough rooms. Required class-slots (" ++
    toString (requiredPerBatch inst * inst.numBatches) ++
    ") exceed total room capacity (" ++
    toString (inst.numRooms * inst.totalSlots) ++ ")."

/-- The "Basic feasibility checks" of lines 65-86, in source order; each
`raise ValueError(...)` is modelled as the returned message. -/
def protoPrecheck (inst : ProtoInstance) : Option String :=
  if inst.maxPerDay > inst.numSlotsPerDay then some (protoMsg1 inst)
  else if inst.maxPerWeek > inst.totalSlots then some (protoMsg2 inst)
  else if inst.minPerDay > inst.maxPerDay then some (protoMsg3 inst)
  else if requiredPerBatch inst > inst.maxPerWeek then some (protoMsg4 inst)
  else if requiredPerBatch inst * inst.numBatches
            > inst.numRooms * inst.totalSlots then some (protoMsg5 inst)
  else none

/-- A valuation of the boolean decision variables `x[b, s, t]`. -/
abbrev ProtoAssign := Nat → Nat → Nat → Bool

/-- Sum of `x[b, s, t]` over the subjects, used in the linking constraint
`sum(...) == y[(b, t)]` of line 103. -/
def occSumP (inst : ProtoInstance) (x : ProtoAssign) (b t : Nat) : Nat :=
  ∑ s ∈ Finset.range inst.numSubjects, (x b s t).toNat

/-- The helper variable `y[b, t]` of line 101, determined from `x` by the
two-directional linking constraint of line 103. -/
def yP (inst : ProtoInstance) (x : ProtoAssign) (b t : Nat) : Bool :=
  occSumP inst x b t = 1

/-- The expression `daily_hours` of line 111. -/
def dailyP (inst : ProtoInstance) (x : ProtoAssign) (b d : Nat) : Nat :=
  ∑ k ∈ Finset.range inst.numSlotsPerDay,
    (yP inst x b (d * inst.numSlotsPerDay + k)).toNat

/-- The weekly sum `sum(y[(b, t)] for t in range(total_slots))` of line 128. -/
def weeklyP (inst : ProtoInstance) (x : ProtoAssign) (b : Nat) : Nat :=
  ∑ t ∈ Finset.range inst.totalSlots, (yP inst x b t).toNat

/-- The per-subject weekly sum of line 133. -/
def subjWeekSumP (inst : ProtoInstance) (x : ProtoAssign) (b s : Nat) : Nat :=
  ∑ t ∈ Finset.range inst.totalSlots, (x b s t).toNat

/-- The per-slot room usage `sum(y[(b, t)] for b ...)` of line 137. -/
def roomSumP (inst : ProtoInstance) (x : ProtoAssign) (t : Nat) : Nat :=
  ∑ b ∈ Finset.range inst.numBatches, (yP inst x b t).toNat

/-- The per-subject per-slot batch count of line 142. -/
def subjSlotSumP (inst : ProtoInstance) (x : ProtoAssign) (s t : Nat) : Nat :=
  ∑ b ∈ Finset.range inst.numBatches, (x b s t).toNat

/-- The hard constraints of `solve_timetable` (lines 97-142), projected onto
the decision variables; the booleans `y[b,t]` and `is_active[b,d]` are
two-directionally linked and are replaced by their determined values.  The
`min_per_day` constraint is only added when `min_per_day > 0` (line 123),
which coincides with the projected form since `daily ≥ 0` always holds. -/
def ProtoSat (inst : ProtoInstance) (x : ProtoAssign) : Prop :=
  (∀ b < inst.numBatches, ∀ t < inst.totalSlots, occSumP inst x b t ≤ 1) ∧
  (∀ b < inst.numBatches, ∀ d < inst.numDays,
      dailyP inst x b d ≤ inst.maxPerDay ∧
      (0 < dailyP inst x b d → inst.minPerDay ≤ dailyP inst x b d)) ∧
  (∀ b < inst.numBatches, weeklyP inst x b ≤ inst.maxPerWeek) ∧
  (∀ b < inst.numBatches, ∀ s < inst.numSubjects,
      subjWeekSumP inst x b s = inst.hours s) ∧
  (∀ t < inst.totalSlots, roomSumP inst x t ≤ inst.numRooms) ∧
  (∀ s < inst.numSubjects, ∀ t < inst.totalSlots,
      subjSlotSumP inst x s t ≤ inst.facCount s)

instance (inst : ProtoInstance) (x : ProtoAssign) : Decidable (ProtoSat inst x) := by
  unfold ProtoSat
  repeat' refine @instDecidableAnd _ _ ?_ ?_
  all_goals infer_instance

/-- The `RuntimeError` message of line 199. -/
def protoNoFeasibleMsg : String :=
  "Solver found no feasible solution within time limit."

/-- One cell of the prototype's decoded schedule (lines 202-208): the loops
`for s_idx: for t:` overwrite `schedule[b][t]` with the subject name for
every true `x[b, s, t]`, so the cell ends as the last true subject index
(`none` stands for `"Free"`). -/
def decodeCellP (inst : ProtoInstance) (x : ProtoAssign) (b t : Nat) :
    Option Nat :=
  lastTrue (fun s => x b s t) (List.range inst.numSubjects)

def decodeScheduleP (inst : ProtoInstance) (x : ProtoAssign) :
    List (List (Option Nat)) :=
  (List.range inst.numBatches).map (fun b =>
    (List.range inst.totalSlots).map (fun t => decodeCellP inst x b t))

/-- `solve_timetable` with the solver abstracted as an oracle: the
pre-checks run first and raise before the model is built; then statuses
other than OPTIMAL/FEASIBLE raise (line 198), otherwise the decoded
schedule is returned. -/
def solve_timetable (inst : ProtoInstance) (status : CpStatus)
    (x : ProtoAssign) : Except String (List (List (Option Nat))) :=
  match protoPrecheck inst with
  | some e => .error e
  | none =>
    if acceptable status then .ok (decodeScheduleP inst x)
    else .error protoNoFeasibleMsg

/-! ### TimetableGenerator.py — `update_slots` and the slot-dependent state

`TimetableApp.update_slots` (lines 352-369) reads the three spinbox hours,
rejects `start >= end`, otherwise rebuilds `self.slots` and calls
`_update_slot_dependent_widgets` (lines 371-381), which re-clamps the two
spinbox variables `max_hours_day_var` and `class_max_daily_hours_var` but
does not touch the classroom registry.  `SlotState` is the touched part of
the application state. -/

structure Classroom where
  capacity : Nat
  ctype : String
  maxDailyHours : Nat
deriving DecidableEq

structure SlotState where
  slots : List String
  maxHoursDayVar : Int
  classMaxDailyHoursVar : Int
  classrooms : List (String × Classroom)
deriving DecidableEq

/-- `num_slots = len(self.slots); if num_slots == 0: num_slots = 1`. -/
def effectiveNumSlots (slots : List String) : Nat :=
  if slots.length = 0 then 1 else slots.length

/-- `_update_slot_dependent_widgets`: clamp the two spinbox variables whose
value exceeds the new slot count (lines 378-381); the spinbox `to` bounds
(lines 374-376) are pure widget configuration and carry no state. -/
def updateSlotDependentWidgets (st : SlotState) : SlotState :=
  { st with
    maxHoursDayVar :=
      if st.maxHoursDayVar > (effectiveNumSlots st.slots : Int)
      then (effectiveNumSlots st.slots : Int) else st.maxHoursDayVar,
    classMaxDailyHoursVar :=
      if st.classMaxDailyHoursVar > (effectiveNumSlots st.slots : Int)
      then (effectiveNumSlots st.slots : Int) else st.classMaxDailyHoursVar }

/-- The f-string `f"{hour}-{hour+1}"` of line 365. -/
def slotLabel (h : Int) : String :=
  toString h ++ "-" ++ toString (h + 1)

/-- The loop of lines 361-365: one one-hour slot per hour of
`range(start, end)`, skipping the lunch hour. -/
def buildSlots (startHour endHour lunchHour : Int) : List String :=
  (((List.range (endHour - startHour).toNat).map
      (fun (i : Nat) => startHour + (i : Int))).filter
    (fun h => h ≠ lunchHour)).map slotLabel

/-- The `messagebox.showerror` text of line 358. -/
def updateSlotsErrMsg : String := "Start hour must be less than end hour."

/-- `TimetableApp.update_slots` as a state transformer: the second component
is the error message shown when the function returns early, in which case
the state is untouched. -/
def update_slots (st : SlotState) (startHour endHour lunchHour : Int) :
    SlotState × Option String :=
  if startHour ≥ endHour then (st, some updateSlotsErrMsg)
  else
    (updateSlotDependentWidgets
      { st with slots := buildSlots startHour endHour lunchHour }, none)



/-! ### Characterizing the generator's decoder -/

/-- The `(f, c)` part of `xSumSFC` at a fixed subject. -/
def innerFC (inst : GenInstance) (x : GenAssign) (b s t : Nat) : Nat :=
  ∑ f ∈ Finset.range inst.numFaculty, ∑ c ∈ Finset.range inst.numClassrooms,
    (x b s f c t).toNat

theorem xSumSFC_eq_sum_innerFC (inst : GenInstance) (x : GenAssign)
    (b t : Nat) :
    xSumSFC inst x b t
      = ∑ s ∈ Finset.range inst.numSubjects, innerFC inst x b s t := rfl

theorem tripleCount_eq_xSumSFC (inst : GenInstance) (x : GenAssign)
    (b t : Nat) :
    (tripleList inst.numSubjects inst.numFaculty inst.numClassrooms).countP
        (fun a => x b a.1 a.2.1 a.2.2 t)
      = xSumSFC inst x b t :=
  countP_tripleList _ _ _ (fun s f c => x b s f c t)

theorem pairCount_eq_innerFC (inst : GenInstance) (x : GenAssign)
    (b s t : Nat) :
    (pairList inst.numFaculty inst.numClassrooms).countP
        (fun p => x b s p.1 p.2 t)
      = innerFC inst x b s t :=
  countP_pairList _ _ (fun f c => x b s f c t)

/-- Whether a decoded cell names subject `s`. -/
def cellSubjectIs : Option (Nat × Nat × Nat) → Nat → Bool
  | some a, s => a.1 == s
  | none, _ => false

/-- Whether a decoded cell names faculty member `f`. -/
def cellFacIs : Option (Nat × Nat × Nat) → Nat → Bool
  | some a, f => a.2.1 == f
  | none, _ => false

/-- Whether a decoded cell names classroom `c`. -/
def cellRoomIs : Option (Nat × Nat × Nat) → Nat → Bool
  | some a, c => a.2.2 == c
  | none, _ => false

/-- Under the batch single-booking bound, the decoded cell is `some (s,f,c)`
exactly for the unique true in-range assignment variable. -/
theorem decodeCellG_eq_some_iff (inst : GenInstance) (x : GenAssign)
    (b t : Nat) (hle : xSumSFC inst x b t ≤ 1) (s f c : Nat) :
    decodeCellG inst x b t = some (s, f, c)
      ↔ s < inst.numSubjects ∧ f < inst.numFaculty ∧ c < inst.numClassrooms ∧
          x b s f c t = true := by
  constructor
  · intro h
    obtain ⟨hmem, hp⟩ := lastTrue_some h
    obtain ⟨hs, hf, hc⟩ := mem_tripleList.mp hmem
    exact ⟨hs, hf, hc, hp⟩
  · rintro ⟨hs, hf, hc, hx⟩
    have hmem : ((s, f, c) : Nat × Nat × Nat)
        ∈ tripleList inst.numSubjects inst.numFaculty inst.numClassrooms :=
      mem_tripleList.mpr ⟨hs, hf, hc⟩
    have hpos : 0 < (tripleList inst.numSubjects inst.numFaculty
        inst.numClassrooms).countP (fun a => x b a.1 a.2.1 a.2.2 t) :=
      List.countP_pos_iff.mpr ⟨(s, f, c), hmem, hx⟩
    have hone : (tripleList inst.numSubjects inst.numFaculty
        inst.numClassrooms).countP (fun a => x b a.1 a.2.1 a.2.2 t) = 1 := by
      have := tripleCount_eq_xSumSFC inst x b t
      omega
    obtain ⟨a, hamem, hpa, hlast⟩ := lastTrue_of_countP_one _ _ hone
    have : a = (s, f, c) := by
      by_contra hne
      have h2 := two_le_countP (fun a => x b a.1 a.2.1 a.2.2 t)
        hamem hmem hne hpa hx
      omega
    rw [decodeCellG, hlast, this]

/-- Under the batch single-booking bound, the decoded cell names subject `s`
iff exactly one `(f, c)` assignment of subject `s` is true. -/
theorem cellSubjectIs_iff (inst : GenInstance) (x : GenAssign) (b t : Nat)
    (hle : xSumSFC inst x b t ≤ 1) (s : Nat) (hs : s < inst.numSubjects) :
    cellSubjectIs (decodeCellG inst x b t) s = true
      ↔ innerFC inst x b s t = 1 := by
  have hinner_le : innerFC inst x b s t ≤ xSumSFC inst x b t := by
    rw [xSumSFC_eq_sum_innerFC]
    exact single_le_sum_range (fun s' => innerFC inst x b s' t) hs
  constructor
  · intro h
    cases hcell : decodeCellG inst x b t with
    | none => rw [hcell] at h; simp [cellSubjectIs] at h
    | some a =>
      rw [hcell] at h
      have has : a.1 = s := by simpa [cellSubjectIs] using h
      obtain ⟨hmem, hp⟩ := lastTrue_some hcell
      obtain ⟨_, hf, hc⟩ := mem_tripleList.mp hmem
      have hpair : (a.2.1, a.2.2) ∈ pairList inst.numFaculty inst.numClassrooms :=
        mem_pairList.mpr ⟨hf, hc⟩
      have hpos : 0 < innerFC inst x b s t := by
        rw [← pairCount_eq_innerFC]
        refine List.countP_pos_iff.mpr ⟨(a.2.1, a.2.2), hpair, ?_⟩
        simpa [has] using hp
      omega
  · intro h
    have hpos : 0 < (pairList inst.numFaculty inst.numClassrooms).countP
        (fun p => x b s p.1 p.2 t) := by
      rw [pairCount_eq_innerFC]; omega
    obtain ⟨pr, hprmem, hprp⟩ := List.countP_pos_iff.mp hpos
    obtain ⟨hf, hc⟩ := mem_pairList.mp hprmem
    have hmem : ((s, pr.1, pr.2) : Nat × Nat × Nat)
        ∈ tripleList inst.numSubjects inst.numFaculty inst.numClassrooms :=
      mem_tripleList.mpr ⟨hs, hf, hc⟩
    have hone : (tripleList inst.numSubjects inst.numFaculty
        inst.numClassrooms).countP (fun a => x b a.1 a.2.1 a.2.2 t) = 1 := by
      have h1 := tripleCount_eq_xSumSFC inst x b t
      have h2 : 0 < (tripleList inst.numSubjects inst.numFaculty
          inst.numClassrooms).countP (fun a => x b a.1 a.2.1 a.2.2 t) :=
        List.countP_pos_iff.mpr ⟨(s, pr.1, pr.2), hmem, hprp⟩
      omega
    obtain ⟨a, hamem, hpa, hlast⟩ := lastTrue_of_countP_one _ _ hone
    have has : a.1 = s := by
      by_contra hne
      have hane : a ≠ (s, pr.1, pr.2) := by
        intro heq; exact hne (by rw [heq])
      have h2 := two_le_countP (fun a => x b a.1 a.2.1 a.2.2 t)
        hamem hmem hane hpa hprp
      omega
    rw [decodeCellG, hlast]
    simp [cellSubjectIs, has]

/-- Swap the week sum of `innerFC` into the constraint order `f, c, t`. -/
theorem sum_innerFC_eq_xSumFCT (inst : GenInstance) (x : GenAssign)
    (b s : Nat) :
    ∑ t ∈ Finset.range inst.totalSlots, innerFC inst x b s t
      = xSumFCT inst x b s := by
  unfold innerFC xSumFCT
  rw [Finset.sum_comm]
  exact Finset.sum_congr rfl (fun f _ => Finset.sum_comm)

/-- Under the batch single-booking constraint, the number of decoded cells
of batch `b` naming subject `s` over the week equals the total number of
true assignment variables for `(b, s)`. -/
theorem countSubject_eq_xSumFCT (inst : GenInstance) (x : GenAssign)
    (b s : Nat) (hs : s < inst.numSubjects)
    (hle : ∀ t < inst.totalSlots, xSumSFC inst x b t ≤ 1) :
    (List.range inst.totalSlots).countP
        (fun t => cellSubjectIs (decodeCellG inst x b t) s)
      = xSumFCT inst x b s := by
  rw [countP_range_eq_sum, ← sum_innerFC_eq_xSumFCT]
  refine Finset.sum_congr rfl (fun t ht => ?_)
  have ht' := Finset.mem_range.mp ht
  have hle' := hle t ht'
  have hinner_le : innerFC inst x b s t ≤ xSumSFC inst x b t := by
    rw [xSumSFC_eq_sum_innerFC]
    exact single_le_sum_range (fun s' => innerFC inst x b s' t) hs
  have hiff := cellSubjectIs_iff inst x b t hle' s hs
  cases hcs : cellSubjectIs (decodeCellG inst x b t) s with
  | true => rw [hiff.mp hcs]; rfl
  | false =>
    have : innerFC inst x b s t ≠ 1 := fun h1 => by
      rw [hiff.mpr h1] at hcs; exact Bool.noConfusion hcs
    have : innerFC inst x b s t = 0 := by omega
    rw [this]; rfl

/-! ### Characterizing the prototype's decoder -/

/-- Whether a decoded prototype cell names subject `s`. -/
def cellIsP : Option Nat → Nat → Bool
  | some s', s => s' == s
  | none, _ => false

theorem rangeCount_eq_occSumP (inst : ProtoInstance) (x : ProtoAssign)
    (b t : Nat) :
    (List.range inst.numSubjects).countP (fun s => x b s t)
      = occSumP inst x b t :=
  countP_range_eq_sum _ _

/-- Under the prototype's single-booking bound, the decoded cell is `some s`
exactly for the unique true in-range assignment variable. -/
theorem decodeCellP_eq_some_iff (inst : ProtoInstance) (x : ProtoAssign)
    (b t : Nat) (hle : occSumP inst x b t ≤ 1) (s : Nat) :
    decodeCellP inst x b t = some s
      ↔ s < inst.numSubjects ∧ x b s t = true := by
  constructor
  · intro h
    obtain ⟨hmem, hp⟩ := lastTrue_some h
    exact ⟨List.mem_range.mp hmem, hp⟩
  · rintro ⟨hs, hx⟩
    have hmem : s ∈ List.range inst.numSubjects := List.mem_range.mpr hs
    have hone : (List.range inst.numSubjects).countP (fun s' => x b s' t) = 1 := by
      have h1 := rangeCount_eq_occSumP inst x b t
      have h2 : 0 < (List.range inst.numSubjects).countP (fun s' => x b s' t) :=
        List.countP_pos_iff.mpr ⟨s, hmem, hx⟩
      omega
    obtain ⟨a, hamem, hpa, hlast⟩ := lastTrue_of_countP_one _ _ hone
    have : a = s := by
      by_contra hne
      have h2 := two_le_countP (fun s' => x b s' t) hamem hmem hne hpa hx
      omega
    rw [decodeCellP, hlast, this]

/-- Under the prototype's single-booking constraint, the number of decoded
cells of batch `b` naming subject `s` over the week equals the weekly count
of true assignment variables for `(b, s)`. -/
theorem countSubjectP_eq_subjWeekSumP (inst : ProtoInstance) (x : ProtoAssign)
    (b s : Nat) (hs : s < inst.numSubjects)
    (hle : ∀ t < inst.totalSlots, occSumP inst x b t ≤ 1) :
    (List.range inst.totalSlots).countP
        (fun t => cellIsP (decodeCellP inst x b t) s)
      = subjWeekSumP inst x b s := by
  rw [countP_range_eq_sum]
  unfold subjWeekSumP
  refine Finset.sum_congr rfl (fun t ht => ?_)
  have hle' := hle t (Finset.mem_range.mp ht)
  cases hx : x b s t with
  | true =>
    have hcell : decodeCellP inst x b t = some s :=
      (decodeCellP_eq_some_iff inst x b t hle' s).mpr ⟨hs, hx⟩
    rw [hcell]
    simp [cellIsP]
  | false =>
    cases hcs : cellIsP (decodeCellP inst x b t) s with
    | false => rfl
    | true =>
      exfalso
      cases hcell : decodeCellP inst x b t with
      | none => rw [hcell] at hcs; simp [cellIsP] at hcs
      | some s' =>
        rw [hcell] at hcs
        have hss : s' = s := by simpa [cellIsP] using hcs
        subst hss
        have := ((decodeCellP_eq_some_iff inst x b t hle' s').mp hcell).2
        rw [hx] at this
        exact Bool.noConfusion this

/-! ### Occupancy-count bounds for the decoded schedules -/

theorem single_le_sum2 (g : Nat → Nat → Nat) {m n i j : Nat}
    (hi : i < m) (hj : j < n) :
    g i j ≤ ∑ a ∈ Finset.range m, ∑ b ∈ Finset.range n, g a b := by
  calc g i j ≤ ∑ b ∈ Finset.range n, g i b :=
        single_le_sum_range (fun b => g i b) hj
    _ ≤ ∑ a ∈ Finset.range m, ∑ b ∈ Finset.range n, g a b :=
        single_le_sum_range (fun a => ∑ b ∈ Finset.range n, g a b) hi

/-- The number of batches whose decoded cell at slot `t` names faculty `f`
is at most the model's per-slot assignment count for `f`. -/
theorem countFac_le_xSumBSC (inst : GenInstance) (x : GenAssign) (f t : Nat) :
    (List.range inst.numBatches).countP
        (fun b => cellFacIs (decodeCellG inst x b t) f)
      ≤ xSumBSC inst x f t := by
  rw [countP_range_eq_sum]
  unfold xSumBSC
  refine Finset.sum_le_sum (fun b _ => ?_)
  cases hq : cellFacIs (decodeCellG inst x b t) f with
  | false => exact Nat.zero_le _
  | true =>
    cases hcell : decodeCellG inst x b t with
    | none => rw [hcell] at hq; simp [cellFacIs] at hq
    | some a =>
      rw [hcell] at hq
      have haf : a.2.1 = f := by simpa [cellFacIs] using hq
      obtain ⟨hmem, hp⟩ := lastTrue_some hcell
      obtain ⟨hs, _, hc⟩ := mem_tripleList.mp hmem
      have : (x b a.1 f a.2.2 t).toNat = 1 := by
        rw [← haf, hp]; rfl
      calc (true : Bool).toNat = (x b a.1 f a.2.2 t).toNat := by rw [this]; rfl
        _ ≤ ∑ s ∈ Finset.range inst.numSubjects,
              ∑ c ∈ Finset.range inst.numClassrooms, (x b s f c t).toNat :=
            single_le_sum2 (fun s c => (x b s f c t).toNat) hs hc

/-- The number of batches whose decoded cell at slot `t` names classroom `c`
is at most the model's per-slot usage count for `c`. -/
theorem countRoom_le_xSumBSF (inst : GenInstance) (x : GenAssign) (c t : Nat) :
    (List.range inst.numBatches).countP
        (fun b => cellRoomIs (decodeCellG inst x b t) c)
      ≤ xSumBSF inst x c t := by
  rw [countP_range_eq_sum]
  unfold xSumBSF
  refine Finset.sum_le_sum (fun b _ => ?_)
  cases hq : cellRoomIs (decodeCellG inst x b t) c with
  | false => exact Nat.zero_le _
  | true =>
    cases hcell : decodeCellG inst x b t with
    | none => rw [hcell] at hq; simp [cellRoomIs] at hq
    | some a =>
      rw [hcell] at hq
      have hac : a.2.2 = c := by simpa [cellRoomIs] using hq
      obtain ⟨hmem, hp⟩ := lastTrue_some hcell
      obtain ⟨hs, hf, _⟩ := mem_tripleList.mp hmem
      have : (x b a.1 a.2.1 c t).toNat = 1 := by
        rw [← hac, hp]; rfl
      calc (true : Bool).toNat = (x b a.1 a.2.1 c t).toNat := by rw [this]; rfl
        _ ≤ ∑ s ∈ Finset.range inst.numSubjects,
              ∑ f' ∈ Finset.range inst.numFaculty, (x b s f' c t).toNat :=
            single_le_sum2 (fun s f' => (x b s f' c t).toNat) hs hf

/-- The number of batches whose decoded prototype cell at slot `t` is
occupied is at most the model's room-usage sum for `t`. -/
theorem countOccupied_le_roomSumP (inst : ProtoInstance) (x : ProtoAssign)
    (t : Nat) (hocc : ∀ b < inst.numBatches, occSumP inst x b t ≤ 1) :
    (List.range inst.numBatches).countP
        (fun b => (decodeCellP inst x b t).isSome)
      ≤ roomSumP inst x t := by
  rw [countP_range_eq_sum]
  unfold roomSumP
  refine Finset.sum_le_sum (fun b hb => ?_)
  cases hq : (decodeCellP inst x b t).isSome with
  | false => exact Nat.zero_le _
  | true =>
    obtain ⟨s', hcell⟩ := Option.isSome_iff_exists.mp hq
    obtain ⟨hmem, hp⟩ := lastTrue_some hcell
    have h1 : 0 < occSumP inst x b t := by
      rw [← rangeCount_eq_occSumP]
      exact List.countP_pos_iff.mpr ⟨s', hmem, hp⟩
    have h2 := hocc b (Finset.mem_range.mp hb)
    have : yP inst x b t = true := by
      unfold yP
      simp only [decide_eq_true_eq]
      omega
    rw [this]

/-- The week's occupied count of a batch splits into the per-day counts. -/
theorem weeklyG_eq_sum_dailyG (inst : GenInstance) (x : GenAssign) (b : Nat) :
    weeklyG inst x b
      = ∑ d ∈ Finset.range inst.numDays, dailyG inst x b d := by
  unfold weeklyG dailyG GenInstance.totalSlots
  exact sum_range_mul (fun t => (yG inst x b t).toNat) inst.numDays
    inst.numSlotsPerDay

theorem decodeScheduleG_row (inst : GenInstance) (x : GenAssign) (b : Nat)
    (hb : b < inst.numBatches) :
    (decodeScheduleG inst x)[b]?
      = some ((List.range inst.totalSlots).map
          (fun t => decodeCellG inst x b t)) := by
  unfold decodeScheduleG
  rw [List.getElem?_map, List.getElem?_range hb]
  rfl

theorem decodeScheduleP_row (inst : ProtoInstance) (x : ProtoAssign) (b : Nat)
    (hb : b < inst.numBatches) :
    (decodeScheduleP inst x)[b]?
      = some ((List.range inst.totalSlots).map
          (fun t => decodeCellP inst x b t)) := by
  unfold decodeScheduleP
  rw [List.getElem?_map, List.getElem?_range hb]
  rfl

/-! ### Claim C1 -/

/-- C1: for every schedule returned by a successful solve
(`solve_timetable_model` or `solve_timetable`), for every batch and every
subject that batch requires, the number of timeslots assigned to that
subject for that batch equals exactly the subject's declared weekly hours —
not less and not more.  (In the prototype every batch takes every subject of
the global subject list.)  Stated for any solver status and valuation such
that an accepted status comes with a model-satisfying valuation. -/
theorem c1_exact_hours :
    (∀ (inst : GenInstance) (st : CpStatus) (x : GenAssign) sched,
      (acceptable st = true → GenSat inst x) →
      solve_timetable_model inst st x = Except.ok sched →
      ∀ b < inst.numBatches, ∀ s < inst.numSubjects,
        inst.requires b s = true →
        ∀ row, sched[b]? = some row →
          row.countP (fun cell => cellSubjectIs cell s) = inst.hours b s) ∧
    (∀ (inst : ProtoInstance) (st : CpStatus) (x : ProtoAssign) sched,
      (acceptable st = true → ProtoSat inst x) →
      solve_timetable inst st x = Except.ok sched →
      ∀ b < inst.numBatches, ∀ s < inst.numSubjects,
        ∀ row, sched[b]? = some row →
          row.countP (fun cell => cellIsP cell s) = inst.hours s) := by
  constructor
  · intro inst st x sched hsound hok b hb s hs hreq row hrow
    by_cases hacc : acceptable st = true
    · obtain ⟨h1, h2, h3, h4, h5, h6, h7, h8, h9⟩ := hsound hacc
      have hsched : decodeScheduleG inst x = sched := by
        simpa [solve_timetable_model, hacc] using hok
      subst hsched
      rw [decodeScheduleG_row inst x b hb] at hrow
      have hrow' := (Option.some.inj hrow).symm
      subst hrow'
      rw [List.countP_map]
      have hcount := countSubject_eq_xSumFCT inst x b s hs
        (fun t ht => h4 b hb t ht)
      have hexact := h8 b hb s hs hreq
      calc (List.range inst.totalSlots).countP
            ((fun cell => cellSubjectIs cell s)
              ∘ fun t => decodeCellG inst x b t)
          = (List.range inst.totalSlots).countP
              (fun t => cellSubjectIs (decodeCellG inst x b t) s) := rfl
        _ = xSumFCT inst x b s := hcount
        _ = inst.hours b s := hexact
    · simp [solve_timetable_model, hacc] at hok
  · intro inst st x sched hsound hok b hb s hs row hrow
    by_cases hacc : acceptable st = true
    · obtain ⟨p1, p2, p3, p4, p5, p6⟩ := hsound hacc
      have hsched : decodeScheduleP inst x = sched := by
        cases hpre : protoPrecheck inst with
        | some e => rw [solve_timetable, hpre] at hok; exact absurd hok (by simp)
        | none =>
          rw [solve_timetable, hpre] at hok
          simpa [hacc] using hok
      subst hsched
      rw [decodeScheduleP_row inst x b hb] at hrow
      have hrow' := (Option.some.inj hrow).symm
      subst hrow'
      rw [List.countP_map]
      have hcount := countSubjectP_eq_subjWeekSumP inst x b s hs
        (fun t ht => p1 b hb t ht)
      have hexact := p4 b hb s hs
      calc (List.range inst.totalSlots).countP
            ((fun cell => cellIsP cell s) ∘ fun t => decodeCellP inst x b t)
          = (List.range inst.totalSlots).countP
              (fun t => cellIsP (decodeCellP inst x b t) s) := rfl
        _ = subjWeekSumP inst x b s := hcount
        _ = inst.hours s := hexact
    · cases hpre : protoPrecheck inst with
      | some e => rw [solve_timetable, hpre] at hok; exact absurd hok (by simp)
      | none => rw [solve_timetable, hpre] at hok; simp [hacc] at hok

/-- Witness instance for C1: one batch, one subject needing 3 hours/week,
one authorized faculty member, one matching classroom, 5 days of 1 slot. -/
def c1GenInst : GenInstance :=
  { numBatches := 1, numSubjects := 1, numFaculty := 1, numClassrooms := 1,
    numDays := 5, numSlotsPerDay := 1,
    requires := fun _ _ => true,
    hours := fun _ _ => 3,
    subjType := fun _ _ => "Lecture",
    authorized := fun _ _ _ => true,
    roomType := fun _ => "Lecture",
    capacity := fun _ => 1,
    maxDailyHours := fun _ => 1,
    minHoursDay := 1, maxHoursDay := 1,
    prefersMorning := fun _ => false,
    slotStartHour := fun _ => 9 }

/-- Witness valuation: the subject is scheduled on days 0, 2 and 4. -/
def c1GenX : GenAssign := fun b s f c t =>
  b == 0 && s == 0 && f == 0 && c == 0 && (t == 0 || t == 2 || t == 4)

def c1GenRow : List (Option (Nat × Nat × Nat)) :=
  [some (0, 0, 0), none, some (0, 0, 0), none, some (0, 0, 0)]

def c1ProtoInst : ProtoInstance :=
  { numSubjects := 1, numBatches := 1, numRooms := 1,
    hours := fun _ => 3, facCount := fun _ => 1,
    maxPerDay := 1, maxPerWeek := 3, minPerDay := 1,
    numDays := 5, numSlotsPerDay := 1 }

def c1ProtoX : ProtoAssign := fun b s t =>
  b == 0 && s == 0 && (t == 0 || t == 2 || t == 4)

def c1ProtoRow : List (Option Nat) := [some 0, none, some 0, none, some 0]

/-- Witness for C1 at the concrete instances above: both decoders place the
subject in exactly 3 cells of the batch's row, matching its declared hours. -/
theorem c1_exact_hours_witness :
    ((decodeScheduleG c1GenInst c1GenX)[0]? = some c1GenRow ∧
      c1GenRow.countP (fun cell => cellSubjectIs cell 0)
        = c1GenInst.hours 0 0) ∧
    ((decodeScheduleP c1ProtoInst c1ProtoX)[0]? = some c1ProtoRow ∧
      c1ProtoRow.countP (fun cell => cellIsP cell 0) = c1ProtoInst.hours 0) := by
  refine ⟨⟨by decide, ?_⟩, ⟨by decide, ?_⟩⟩
  · exact c1_exact_hours.1 c1GenInst .optimal c1GenX
      (decodeScheduleG c1GenInst c1GenX) (fun _ => by decide) rfl
      0 (by decide) 0 (by decide) (by decide) c1GenRow (by decide)
  · exact c1_exact_hours.2 c1ProtoInst .optimal c1ProtoX
      (decodeScheduleP c1ProtoInst c1ProtoX) (fun _ => by decide) rfl
      0 (by decide) 0 (by decide) c1ProtoRow (by decide)

/-! ### Claim C3 -/

/-- C3: for every input in which some batch requires a subject with positive
weekly hours but no faculty member is authorized for that (subject, batch)
pair, the constraint model built by `solve_timetable_model` is unsatisfiable,
so every honestly-reported solve terminates in the solve-failure error rather
than returning a schedule. -/
theorem c3_no_faculty_infeasible (inst : GenInstance) (b s : Nat)
    (hb : b < inst.numBatches) (hs : s < inst.numSubjects)
    (hreq : inst.requires b s = true) (hpos : 0 < inst.hours b s)
    (hnoauth : ∀ f < inst.numFaculty, inst.authorized f s b = false) :
    (∀ x, ¬ GenSat inst x) ∧
    (∀ (st : CpStatus) (x : GenAssign),
      (acceptable st = true → GenSat inst x) →
      solve_timetable_model inst st x = Except.error genNoFeasibleMsg) := by
  have hunsat : ∀ x, ¬ GenSat inst x := by
    intro x hsat
    obtain ⟨h1, h2, h3, h4, h5, h6, h7, h8, h9⟩ := hsat
    have hexact := h8 b hb s hs hreq
    have hzero : xSumFCT inst x b s = 0 := by
      refine Finset.sum_eq_zero (fun f hf => ?_)
      exact h2 b hb s hs hreq f (Finset.mem_range.mp hf)
        (hnoauth f (Finset.mem_range.mp hf))
    omega
  refine ⟨hunsat, fun st x hsound => ?_⟩
  by_cases hacc : acceptable st = true
  · exact absurd (hsound hacc) (hunsat x)
  · simp [solve_timetable_model, hacc]

/-- Witness instance for C3: the single faculty member is not authorized for
the required subject. -/
def c3Inst : GenInstance :=
  { numBatches := 1, numSubjects := 1, numFaculty := 1, numClassrooms := 1,
    numDays := 5, numSlotsPerDay := 1,
    requires := fun _ _ => true,
    hours := fun _ _ => 1,
    subjType := fun _ _ => "Lecture",
    authorized := fun _ _ _ => false,
    roomType := fun _ => "Lecture",
    capacity := fun _ => 1,
    maxDailyHours := fun _ => 1,
    minHoursDay := 0, maxHoursDay := 1,
    prefersMorning := fun _ => false,
    slotStartHour := fun _ => 9 }

/-- Witness for C3: a solver reporting INFEASIBLE on `c3Inst` makes the
solve surface the solve-failure error. -/
theorem c3_no_faculty_infeasible_witness :
    solve_timetable_model c3Inst .infeasible (fun _ _ _ _ _ => false)
      = Except.error genNoFeasibleMsg :=
  (c3_no_faculty_infeasible c3Inst 0 0 (by decide) (by decide) (by decide)
      (by decide) (fun _ _ => rfl)).2 .infeasible
    (fun _ _ _ _ _ => false) (fun h => absurd h (by decide))

/-! ### Claim C4 -/

/-- C4: in every schedule returned by a successful solve, for every batch
and timeslot at most one assignment is true; for every faculty member and
timeslot at most one assignment is true; and for every classroom and
timeslot the number of true assignments using that classroom does not exceed
its stated capacity — both at the variable level and counted over the
decoded schedule (for the prototype, over the fungible room pool). -/
theorem c4_no_double_booking :
    (∀ (inst : GenInstance) (st : CpStatus) (x : GenAssign) sched,
      (acceptable st = true → GenSat inst x) →
      solve_timetable_model inst st x = Except.ok sched →
      (∀ b < inst.numBatches, ∀ t < inst.totalSlots,
        xSumSFC inst x b t ≤ 1) ∧
      (∀ f < inst.numFaculty, ∀ t < inst.totalSlots,
        xSumBSC inst x f t ≤ 1) ∧
      (∀ c < inst.numClassrooms, ∀ t < inst.totalSlots,
        xSumBSF inst x c t ≤ inst.capacity c) ∧
      (∀ f < inst.numFaculty, ∀ t < inst.totalSlots,
        (List.range inst.numBatches).countP
          (fun b => cellFacIs (decodeCellG inst x b t) f) ≤ 1) ∧
      (∀ c < inst.numClassrooms, ∀ t < inst.totalSlots,
        (List.range inst.numBatches).countP
          (fun b => cellRoomIs (decodeCellG inst x b t) c)
          ≤ inst.capacity c)) ∧
    (∀ (inst : ProtoInstance) (st : CpStatus) (x : ProtoAssign) sched,
      (acceptable st = true → ProtoSat inst x) →
      solve_timetable inst st x = Except.ok sched →
      (∀ t < inst.totalSlots, roomSumP inst x t ≤ inst.numRooms) ∧
      (∀ t < inst.totalSlots,
        (List.range inst.numBatches).countP
          (fun b => (decodeCellP inst x b t).isSome) ≤ inst.numRooms)) := by
  constructor
  · intro inst st x sched hsound hok
    by_cases hacc : acceptable st = true
    · obtain ⟨h1, h2, h3, h4, h5, h6, h7, h8, h9⟩ := hsound hacc
      refine ⟨h4, h5, h6, ?_, ?_⟩
      · intro f hf t ht
        exact le_trans (countFac_le_xSumBSC inst x f t) (h5 f hf t ht)
      · intro c hc t ht
        exact le_trans (countRoom_le_xSumBSF inst x c t) (h6 c hc t ht)
    · simp [solve_timetable_model, hacc] at hok
  · intro inst st x sched hsound hok
    by_cases hacc : acceptable st = true
    · obtain ⟨p1, p2, p3, p4, p5, p6⟩ := hsound hacc
      refine ⟨p5, fun t ht => ?_⟩
      exact le_trans
        (countOccupied_le_roomSumP inst x t (fun b hb => p1 b hb t ht))
        (p5 t ht)
    · cases hpre : protoPrecheck inst with
      | some e => rw [solve_timetable, hpre] at hok; exact absurd hok (by simp)
      | none => rw [solve_timetable, hpre] at hok; simp [hacc] at hok

/-- Witness for C4 at the C1 witness instances. -/
theorem c4_no_double_booking_witness :
    (xSumSFC c1GenInst c1GenX 0 0 ≤ 1 ∧
      (List.range 1).countP
        (fun b => cellFacIs (decodeCellG c1GenInst c1GenX b 0) 0) ≤ 1) ∧
    roomSumP c1ProtoInst c1ProtoX 0 ≤ 1 := by
  have hg := c4_no_double_booking.1 c1GenInst .optimal c1GenX
    (decodeScheduleG c1GenInst c1GenX) (fun _ => by decide) rfl
  have hp := c4_no_double_booking.2 c1ProtoInst .optimal c1ProtoX
    (decodeScheduleP c1ProtoInst c1ProtoX) (fun _ => by decide) rfl
  exact ⟨⟨hg.1 0 (by decide) 0 (by decide), hg.2.2.2.1 0 (by decide) 0 (by decide)⟩,
    hp.1 0 (by decide)⟩

/-! ### Claim C8 -/

/-- C8 counterexample: a solver status of INFEASIBLE and one of UNKNOWN
(timeout) produce the identical outcome — the same `RuntimeError` with the
same message — in both solve functions, so the two failure modes are not
surfaced as distinct error kinds. -/
theorem c8_counterexample :
    solve_timetable_model c1GenInst .infeasible c1GenX
        = Except.error genNoFeasibleMsg ∧
    solve_timetable_model c1GenInst .unknown c1GenX
        = Except.error genNoFeasibleMsg ∧
    solve_timetable c1ProtoInst .infeasible c1ProtoX
        = Except.error protoNoFeasibleMsg ∧
    solve_timetable c1ProtoInst .unknown c1ProtoX
        = Except.error protoNoFeasibleMsg :=
  ⟨rfl, rfl, rfl, rfl⟩

/-- C8 amended: both solves accept a solver result exactly when the status
is OPTIMAL or FEASIBLE (for the prototype, once the pre-checks pass — with
a failing pre-check the solver is never consulted), returning the decoded
schedule, and every other status (INFEASIBLE and UNKNOWN alike) raises that
file's single fixed `RuntimeError`; infeasibility and timeout are not
distinguished. -/
theorem c8_status_handling_amended :
    (∀ (inst : GenInstance) (st : CpStatus) (x : GenAssign),
      (solve_timetable_model inst st x
          = Except.ok (decodeScheduleG inst x)
        ↔ (st = .optimal ∨ st = .feasible)) ∧
      (solve_timetable_model inst st x = Except.error genNoFeasibleMsg
        ↔ (st = .infeasible ∨ st = .unknown))) ∧
    (∀ (inst : ProtoInstance) (st : CpStatus) (x : ProtoAssign),
      protoPrecheck inst = none →
      (solve_timetable inst st x = Except.ok (decodeScheduleP inst x)
        ↔ (st = .optimal ∨ st = .feasible)) ∧
      (solve_timetable inst st x = Except.error protoNoFeasibleMsg
        ↔ (st = .infeasible ∨ st = .unknown))) := by
  constructor
  · intro inst st x
    cases st <;> simp [solve_timetable_model, acceptable]
  · intro inst st x hpre
    rw [solve_timetable, hpre]
    cases st <;> simp [acceptable]

/-- Witness for the amended C8: on the pre-check-passing prototype instance
and the generator instance, FEASIBLE is accepted with the decoded schedule
and UNKNOWN raises each file's fixed error. -/
theorem c8_status_handling_amended_witness :
    solve_timetable_model c1GenInst .feasible c1GenX
        = Except.ok (decodeScheduleG c1GenInst c1GenX) ∧
    solve_timetable c1ProtoInst .feasible c1ProtoX
        = Except.ok (decodeScheduleP c1ProtoInst c1ProtoX) ∧
    solve_timetable c1ProtoInst .unknown c1ProtoX
        = Except.error protoNoFeasibleMsg := by
  refine ⟨?_, ?_, ?_⟩
  · exact (c8_status_handling_amended.1 c1GenInst .feasible c1GenX).1.mpr
      (Or.inr rfl)
  · exact ((c8_status_handling_amended.2 c1ProtoInst .feasible c1ProtoX
      rfl).1).mpr (Or.inr rfl)
  · exact ((c8_status_handling_amended.2 c1ProtoInst .unknown c1ProtoX
      rfl).2).mpr (Or.inr rfl)

/-! ### Claim C7 -/

/-- C7 counterexample instance: identical to `c1GenInst` except that
max-hours-per-day (5) exceeds slots-per-day (1), which the spec's
pre-checks reject. -/
def c7Inst : GenInstance :=
  { c1GenInst with maxHoursDay := 5 }

/-- C7 counterexample: `solve_timetable_model` performs no feasibility
pre-checks — on an input whose max-hours-per-day exceeds slots-per-day the
model is still built (and is even satisfiable), the solve returns a
schedule, and no configuration error is raised. -/
theorem c7_counterexample :
    c7Inst.numSlotsPerDay < c7Inst.maxHoursDay ∧
    GenSat c7Inst c1GenX ∧
    solve_timetable_model c7Inst .optimal c1GenX
      = Except.ok (decodeScheduleG c7Inst c1GenX) :=
  ⟨by decide, by decide, rfl⟩

/-- C7 amended: in the prototype's `solve_timetable` the five feasibility
pre-checks do run before model construction — the pre-check passes exactly
when none of the five overload conditions holds, and a failing pre-check
makes the solve raise that configuration error for every solver outcome
(the model is never built).  `solve_timetable_model` has no pre-check stage
(see the counterexample). -/
theorem c7_precheck_amended :
    (∀ inst : ProtoInstance,
      protoPrecheck inst = none ↔
        ¬(inst.numSlotsPerDay < inst.maxPerDay ∨
          inst.totalSlots < inst.maxPerWeek ∨
          inst.maxPerDay < inst.minPerDay ∨
          inst.maxPerWeek < requiredPerBatch inst ∨
          inst.numRooms * inst.totalSlots
            < requiredPerBatch inst * inst.numBatches)) ∧
    (∀ (inst : ProtoInstance) (e : String), protoPrecheck inst = some e →
      ∀ (st : CpStatus) (x : ProtoAssign),
        solve_timetable inst st x = Except.error e) := by
  constructor
  · intro inst
    unfold protoPrecheck
    split_ifs with h1 h2 h3 h4 h5 <;> simp_all
  · intro inst e hpre st x
    rw [solve_timetable, hpre]

/-- Witness pre-check failure: min-hours-per-day (3) exceeds
max-hours-per-day (1). -/
def c7ProtoBad : ProtoInstance :=
  { c1ProtoInst with minPerDay := 3 }

/-- Witness for the amended C7: the failing input is rejected with the
min/max configuration error and the solve surfaces exactly that error. -/
theorem c7_precheck_amended_witness :
    protoPrecheck c7ProtoBad = some (protoMsg3 c7ProtoBad) ∧
    solve_timetable c7ProtoBad .optimal (fun _ _ _ => false)
      = Except.error (protoMsg3 c7ProtoBad) :=
  ⟨rfl, c7_precheck_amended.2 c7ProtoBad (protoMsg3 c7ProtoBad) rfl .optimal
    (fun _ _ _ => false)⟩

/-! ### Claim C5 -/

/-- C5 counterexample instance: one batch, one subject needing 5 hours on a
5-day, 1-slot-per-day grid. -/
def c5Inst : GenInstance :=
  { c1GenInst with hours := fun _ _ => 5 }

/-- C5 counterexample valuation: every slot of the week is occupied. -/
def c5X : GenAssign := fun b s f c _ =>
  b == 0 && s == 0 && f == 0 && c == 0

/-- C5 counterexample: the `solve_timetable_model` model has no weekly-cap
parameter or constraint — it admits a solution whose weekly occupied count
for a batch equals the entire week (all `totalSlots` slots), so no weekly
cap below the trivial maximum is enforced. -/
theorem c5_counterexample :
    GenSat c5Inst c5X ∧ weeklyG c5Inst c5X 0 = 5 ∧ c5Inst.totalSlots = 5 :=
  ⟨by decide, by decide, rfl⟩

/-- C5 amended: the prototype's model enforces the weekly cap
`max_per_week` as a hard constraint; the generator's model bounds a batch's
week only through the daily cap, by `numDays * maxHoursDay`. -/
theorem c5_weekly_cap_amended :
    (∀ (inst : ProtoInstance) (x : ProtoAssign), ProtoSat inst x →
      ∀ b < inst.numBatches, weeklyP inst x b ≤ inst.maxPerWeek) ∧
    (∀ (inst : GenInstance) (x : GenAssign), GenSat inst x →
      ∀ b < inst.numBatches,
        weeklyG inst x b ≤ inst.numDays * inst.maxHoursDay) := by
  constructor
  · intro inst x hsat b hb
    exact hsat.2.2.1 b hb
  · intro inst x hsat b hb
    obtain ⟨h1, h2, h3, h4, h5, h6, h7, h8, h9⟩ := hsat
    rw [weeklyG_eq_sum_dailyG]
    calc ∑ d ∈ Finset.range inst.numDays, dailyG inst x b d
        ≤ ∑ _d ∈ Finset.range inst.numDays, inst.maxHoursDay :=
          Finset.sum_le_sum (fun d hd => (h9 b hb d (Finset.mem_range.mp hd)).1)
      _ = inst.numDays * inst.maxHoursDay := by
          rw [Finset.sum_const, Finset.card_range, smul_eq_mul]

/-- Witness for the amended C5 at the C1 witness instances. -/
theorem c5_weekly_cap_amended_witness :
    weeklyP c1ProtoInst c1ProtoX 0 ≤ c1ProtoInst.maxPerWeek ∧
    weeklyG c1GenInst c1GenX 0 ≤ c1GenInst.numDays * c1GenInst.maxHoursDay :=
  ⟨c5_weekly_cap_amended.1 c1ProtoInst c1ProtoX (by decide) 0 (by decide),
   c5_weekly_cap_amended.2 c1GenInst c1GenX (by decide) 0 (by decide)⟩

/-! ### Claim C6 -/

/-- C6 counterexample instance: two faculty members, so two assignment
variables can be true for one (batch, timeslot). -/
def c6Inst : GenInstance :=
  { c1GenInst with numFaculty := 2 }

/-- C6 counterexample valuation: both faculty 0 and faculty 1 teach batch 0
subject 0 in room 0 at slot 0. -/
def c6X : GenAssign := fun b s _f c t =>
  b == 0 && s == 0 && c == 0 && t == 0

/-- C6 counterexample: with two assignment variables true for (batch 0,
slot 0), the decoder raises nothing — it returns a complete schedule whose
conflicted cell silently keeps only the last true assignment (faculty 1) in
iteration order. -/
theorem c6_counterexample :
    xSumSFC c6Inst c6X 0 0 = 2 ∧
    decodeCellG c6Inst c6X 0 0 = some (0, 1, 0) ∧
    decodeScheduleG c6Inst c6X
      = [[some (0, 1, 0), none, none, none, none]] :=
  ⟨by decide, by decide, by decide⟩

/-- C6 amended: decoding is a pure function of the variable valuation and
never raises; under the model's single-booking constraint the decoded cell
is exactly the unique true assignment, while on inconsistent valuations
(more than one true variable per batch/slot) the decoder silently keeps the
last true assignment instead of aborting. -/
theorem c6_decoder_amended :
    ∀ (inst : GenInstance) (x : GenAssign), GenSat inst x →
      ∀ b < inst.numBatches, ∀ t < inst.totalSlots, ∀ s f c,
        decodeCellG inst x b t = some (s, f, c)
          ↔ (s < inst.numSubjects ∧ f < inst.numFaculty ∧
              c < inst.numClassrooms ∧ x b s f c t = true) := by
  intro inst x hsat b hb t ht s f c
  exact decodeCellG_eq_some_iff inst x b t (hsat.2.2.2.1 b hb t ht) s f c

/-- Witness for the amended C6 at the C1 witness instance. -/
theorem c6_decoder_amended_witness :
    decodeCellG c1GenInst c1GenX 0 0 = some (0, 0, 0)
      ↔ (0 < c1GenInst.numSubjects ∧ 0 < c1GenInst.numFaculty ∧
          0 < c1GenInst.numClassrooms ∧ c1GenX 0 0 0 0 0 = true) :=
  c6_decoder_amended c1GenInst c1GenX (by decide) 0 (by decide) 0 (by decide)
    0 0 0

/-! ### Claim C2 -/

def c2Adj : Nat → Nat → Nat → Bool := fun _ _ _ => false

def c2IsFree : Nat → Nat → Bool := fun _ _ => false

def c2IsLong : Nat → Nat → Nat → Bool := fun _ _ _ => false

def c2HasClass : Nat → Nat → Bool := fun _ _ => false

/-- C2: the generator's objective-composer indicators are only half-linked.
This solution of the full model (hard constraints plus every composer
indicator constraint) leaves batch 0's day 1 with zero occupied slots while
its free-day indicator is false — the constraints do not force the
indicator when its defining condition holds, so "true iff condition" fails
(and a maximizing solver will always pick exactly this all-false penalty
assignment, making the free-day, long-stretch and faculty-preference
penalties vacuous). -/
theorem c2_indicator_gap :
    GenSat c1GenInst c1GenX ∧
    GenComposerSat c1GenInst c1GenX c2Adj c2IsFree c2IsLong c2HasClass ∧
    dailyG c1GenInst c1GenX 0 1 = 0 ∧
    c2IsFree 0 1 = false :=
  ⟨by decide, by decide, by decide, rfl⟩

/-! ### Counting the generated slot labels -/

theorem countP_bnot {α : Type} (p : α → Bool) (l : List α) :
    l.countP (fun a => !(p a)) = l.length - l.countP p := by
  induction l with
  | nil => rfl
  | cons x xs ih =>
    have hle : xs.countP p ≤ xs.length := List.countP_le_length _
    rw [List.countP_cons, List.countP_cons, List.length_cons, ih]
    cases hp : p x with
    | false => simp [hp]; omega
    | true => simp [hp]

theorem sum_indicator_range (n j : Nat) :
    ∑ i ∈ Finset.range n, (decide (i = j)).toNat
      = if j < n then 1 else 0 := by
  induction n with
  | zero => simp
  | succ n ih =>
    rw [Finset.sum_range_succ, ih]
    by_cases hj : j = n
    · subst hj; simp
    · have h0 : (decide (n = j)).toNat = 0 := by simp [Ne.symm hj]
      rw [h0]
      split_ifs <;> omega

/-- The hour list `range(start, end)` contains the lunch hour exactly when
`start ≤ lunch < end`. -/
theorem countLunch (s e l : Int) :
    ((List.range (e - s).toNat).map (fun (i : Nat) => s + (i : Int))).countP
        (fun x => x = l)
      = if s ≤ l ∧ l < e then 1 else 0 := by
  rw [List.countP_map, countP_range_eq_sum]
  by_cases hl : s ≤ l ∧ l < e
  · have hn : (l - s).toNat < (e - s).toNat := by omega
    rw [if_pos hl]
    have hcongr : ∀ i ∈ Finset.range (e - s).toNat,
        (((fun x => decide (x = l)) ∘ fun (j : Nat) => s + (j : Int)) i).toNat
          = (decide (i = (l - s).toNat)).toNat := by
      intro i _
      have hiff : (s + (i : Int) = l) ↔ (i = (l - s).toNat) := by omega
      simp only [Function.comp]
      rw [decide_eq_decide.mpr hiff]
    rw [Finset.sum_congr rfl hcongr, sum_indicator_range, if_pos hn]
  · rw [if_neg hl]
    refine Finset.sum_eq_zero (fun i hi => ?_)
    have hi' := Finset.mem_range.mp hi
    have hne : ¬(s + (i : Int) = l) := by omega
    simp only [Function.comp]
    simp [hne]

/-- The new slot count: one slot per hour of `[start, end)` minus one when
the lunch hour falls in that range. -/
theorem buildSlots_length (s e l : Int) :
    (buildSlots s e l).length
      = (e - s).toNat - (if s ≤ l ∧ l < e then 1 else 0) := by
  unfold buildSlots
  rw [List.length_map, ← List.countP_eq_length_filter]
  have hcongr : ((List.range (e - s).toNat).map
        (fun (i : Nat) => s + (i : Int))).countP (fun h => decide (h ≠ l))
      = ((List.range (e - s).toNat).map
        (fun (i : Nat) => s + (i : Int))).countP (fun h => !(decide (h = l))) :=
    List.countP_congr (fun a _ => by simp)
  rw [hcongr, countP_bnot, List.length_map, List.length_range, countLunch]

/-! ### Claim C10 -/

/-- C10: `update_slots` is atomic on error — with start ≥ end it reports the
error and leaves the whole state (in particular the slot list) untouched;
with start < end it succeeds and installs a slot list whose length is
(end − start), minus one exactly when start ≤ lunch < end. -/
theorem c10_update_slots :
    (∀ (st : SlotState) (s e l : Int), s ≥ e →
      update_slots st s e l = (st, some updateSlotsErrMsg)) ∧
    (∀ (st : SlotState) (s e l : Int), s < e →
      (update_slots st s e l).2 = none ∧
      (update_slots st s e l).1.slots = buildSlots s e l ∧
      (update_slots st s e l).1.slots.length
        = (e - s).toNat - (if s ≤ l ∧ l < e then 1 else 0)) := by
  constructor
  · intro st s e l h
    unfold update_slots
    rw [if_pos h]
  · intro st s e l h
    have hcond : ¬(s ≥ e) := by omega
    unfold update_slots
    rw [if_neg hcond]
    exact ⟨rfl, rfl, buildSlots_length s e l⟩

/-! ### Claim C9 -/

def c9Room : Classroom :=
  { capacity := 1, ctype := "Lecture", maxDailyHours := 7 }

/-- C9 counterexample state: the default 7-slot grid with one registered
classroom whose max-daily-hours is 7. -/
def c9State : SlotState :=
  { slots := ["9-10", "10-11", "11-12", "12-1", "2-3", "3-4", "4-5"],
    maxHoursDayVar := 5, classMaxDailyHoursVar := 7,
    classrooms := [("R1", c9Room)] }

/-- C9 counterexample: shrinking the grid to 3 slots (9-12, lunch 13)
leaves the registered classroom's stored max-daily-hours at 7, so after the
rebuild the invariant max-daily-usage ≤ slots-per-day fails for a classroom
in the registry — nothing re-clamps the stored values. -/
theorem c9_counterexample :
    (update_slots c9State 9 12 13).1.slots.length = 3 ∧
    (update_slots c9State 9 12 13).1.classrooms = [("R1", c9Room)] ∧
    ((update_slots c9State 9 12 13).1.classrooms.all
      (fun rc => rc.2.maxDailyHours
        ≤ (update_slots c9State 9 12 13).1.slots.length)) = false :=
  ⟨by decide, by decide, by decide⟩

/-- C9 amended: a slot rebuild never touches the classroom registry; the
re-clamping of `_update_slot_dependent_widgets` applies only to the two
spinbox variables (max-hours-per-day and the classroom form's
max-daily-hours field), which are clamped to the new effective slot
count. -/
theorem c9_update_slots_amended :
    ∀ (st : SlotState) (s e l : Int),
      (update_slots st s e l).1.classrooms = st.classrooms ∧
      (s < e →
        (update_slots st s e l).1.maxHoursDayVar
          = min st.maxHoursDayVar
              ((effectiveNumSlots (buildSlots s e l) : Nat) : Int) ∧
        (update_slots st s e l).1.classMaxDailyHoursVar
          = min st.classMaxDailyHoursVar
              ((effectiveNumSlots (buildSlots s e l) : Nat) : Int)) := by
  intro st s e l
  by_cases h : s ≥ e
  · unfold update_slots
    rw [if_pos h]
    exact ⟨rfl, fun hlt => absurd h (by omega)⟩
  · unfold update_slots
    rw [if_neg h]
    refine ⟨rfl, fun _ => ⟨?_, ?_⟩⟩
    all_goals simp only [updateSlotDependentWidgets]
    all_goals split_ifs <;> omega

/-- Witness for the amended C9: after the 9-12 rebuild (3 slots) the
registry is unchanged and the max-hours spinbox is clamped from 5 to 3. -/
theorem c9_update_slots_amended_witness :
    (update_slots c9State 9 12 13).1.classrooms = c9State.classrooms ∧
    (update_slots c9State 9 12 13).1.maxHoursDayVar = 3 := by
  have h := c9_update_slots_amended c9State 9 12 13
  refine ⟨h.1, ?_⟩
  rw [(h.2 (by decide)).1]
  decide

/-- Witness for C10: a reversed range is rejected with the state unchanged,
and the 9-17 range with lunch at 13 yields 7 slots. -/
theorem c10_update_slots_witness :
    update_slots c9State 10 9 13 = (c9State, some updateSlotsErrMsg) ∧
    (update_slots c9State 9 17 13).2 = none ∧
    (update_slots c9State 9 17 13).1.slots.length = 7 := by
  refine ⟨c10_update_slots.1 c9State 10 9 13 (by decide), ?_, ?_⟩
  · exact (c10_update_slots.2 c9State 9 17 13 (by decide)).1
  · rw [(c10_update_slots.2 c9State 9 17 13 (by decide)).2.2]
    decide

end Timetable
